import Mathlib

/-!
Shallow embedding of the eve-swagger-js region/station wrapper layer.

The source files embedded here are:
* `src/api/universe/regions.ts` (the unnamed part): `Region`, `MappedRegions`,
  `IteratedRegions`, the `Regions` functor built by `makeRegions`, `getDetails`
  and the `RegionMarket` class;
* `src/api/universe/stations.ts`: the `Stations` functor built by
  `makeStations` and `StationImpl`;
* the `Contacts.all` test, which documents the paginated fetch behaviour.

The HTTP agent is an external collaborator; it is modelled as a function from
a `Request` to an `Except` result.  Wrapper computations live in a writer-style
monad `M` that records the list of requests issued to the agent, so that
"exactly one request is issued" and "errors are passed through" are statable.

Helpers that the repository uses but whose implementation is outside the
provided sources (`makePageBasedStreamer`, `getNames`, `getIteratedNames`,
`makeDefaultSearch`, `SimpleMappedResource`) are modelled from the spec; each
such definition's doc comment says so explicitly.
-/

/-- A JSON-ish value standing for the untyped HTTP responses the agent
produces. -/
inductive Json where
  | null
  | num (n : Int)
  | str (s : String)
  | bool (b : Bool)
  | arr (elems : List Json)
  | obj (fields : List (String × Json))

/-- JavaScript property access `j.k`: the field's value on an object holding
it, `undefined` (modelled as `null`) otherwise. -/
def Json.getField (j : Json) (k : String) : Json :=
  match j with
  | .obj fs =>
    match fs.lookup k with
    | some v => v
    | none => .null
  | _ => .null

/-- Treating a response as an array, as the pagination code does with
`result.length` and concatenation; non-arrays behave as empty. -/
def Json.toArr : Json → List Json
  | .arr xs => xs
  | _ => []

/-- The elements of a JSON array of numbers (e.g. the id list returned by
`get_universe_regions` or `get_search`). -/
def Json.toIntList (j : Json) : List Int :=
  j.toArr.filterMap fun e =>
    match e with
    | .num n => some n
    | _ => none

/-- A value appearing in a request's query parameters. -/
inductive PVal where
  | num (n : Int)
  | str (s : String)
deriving DecidableEq

/-- The argument of `agent.request(route, params)`: the route id plus the
path/query/body parameters the wrapper constructs. -/
structure Request where
  route : String
  path : List (String × Int) := []
  query : List (String × PVal) := []
  body : List Int := []
deriving DecidableEq

/-- The external HTTP collaborator: resolves or rejects each request. -/
abbrev Agent (ε : Type) := Request → Except ε Json

/-- A wrapper computation: given the agent it produces the settled promise
value (`Except`) together with the list of requests issued to the agent, in
order, before the promise settles. -/
abbrev M (ε α : Type) := Agent ε → Except ε α × List Request

/-- `Promise.resolve(a)`: no request issued. -/
def M.pure (a : α) : M ε α := fun _ => (.ok a, [])

/-- `.then` chaining: a rejection short-circuits, requests accumulate in
order. -/
def M.bind (m : M ε α) (f : α → M ε β) : M ε β := fun agent =>
  match m agent with
  | (.error e, tr) => (.error e, tr)
  | (.ok a, tr) =>
    let (res, tr2) := f a agent
    (res, tr ++ tr2)

/-- `agent.request(...)`: issues exactly the one request and yields whatever
the agent returns for it. -/
def M.call (r : Request) : M ε Json := fun agent => (agent r, [r])

/-- `.then(result => g(result))` with a pure `g`. -/
def M.map (f : α → β) (m : M ε α) : M ε β := M.bind m fun a => M.pure (f a)

namespace esi

def SearchCategory.REGION : String := "region"

def SearchCategory.STATION : String := "station"

/- `esi.universe.NameCategory` in the source; `universe` is a Lean keyword so
the inner namespace is dropped here. -/

def NameCategory.CONSTELLATION : String := "constellation"

def NameCategory.REGION : String := "region"

def NameCategory.STATION : String := "station"

end esi

/-! ## Requests constructed by the embedded wrappers (regions.ts, stations.ts) -/

/-- The request issued by `getDetails` in regions.ts:
`agent.request('get_universe_regions_region_id', { path: { region_id: id } })`. -/
def detailsRequest (id : Int) : Request :=
  { route := "get_universe_regions_region_id", path := [("region_id", id)] }

/-- The request of the `get_universe_regions` id listing used by
`IteratedRegions`. -/
def regionsListRequest : Request :=
  { route := "get_universe_regions" }

/-- The request issued by `StationImpl.info` in stations.ts:
`agent.request('get_universe_stations_station_id', { path: { station_id: id } })`. -/
def stationInfoRequest (id : Int) : Request :=
  { route := "get_universe_stations_station_id", path := [("station_id", id)] }

/-- The `post_universe_names` request whose body is the id list. -/
def namesRequest (ids : List Int) : Request :=
  { route := "post_universe_names", body := ids }

/-- The `get_search` request for a query restricted to one category. -/
def searchRequest (category : String) (q : String) (strict : Bool) : Request :=
  { route := "get_search",
    query := [("categories", .str category), ("search", .str q),
              ("strict", .str (toString strict))] }

/-- The page request issued by `RegionMarket.orders`:
route `get_markets_region_id_orders` with path `region_id` and query
`page`, `order_type: 'all'`. -/
def ordersPageRequest (id : Int) (page : Nat) : Request :=
  { route := "get_markets_region_id_orders", path := [("region_id", id)],
    query := [("page", .num page), ("order_type", .str "all")] }

/-- The request issued by `RegionMarket.buyOrdersFor(type)`. -/
def buyOrdersRequest (id ty : Int) : Request :=
  { route := "get_markets_region_id_orders", path := [("region_id", id)],
    query := [("type_id", .num ty), ("order_type", .str "buy")] }

/-- The request issued by `RegionMarket.sellOrdersFor(type)`. -/
def sellOrdersRequest (id ty : Int) : Request :=
  { route := "get_markets_region_id_orders", path := [("region_id", id)],
    query := [("type_id", .num ty), ("order_type", .str "sell")] }

/-- The request issued by `RegionMarket.ordersFor(type)`. -/
def allOrdersRequest (id ty : Int) : Request :=
  { route := "get_markets_region_id_orders", path := [("region_id", id)],
    query := [("type_id", .num ty), ("order_type", .str "all")] }

/-- The page request issued by `RegionMarket.types`. -/
def typesPageRequest (id : Int) (page : Nat) : Request :=
  { route := "get_markets_region_id_types", path := [("region_id", id)],
    query := [("page", .num page)] }

/-- The request issued by `RegionMarket.history(type)`. -/
def historyRequest (id ty : Int) : Request :=
  { route := "get_markets_region_id_history", path := [("region_id", id)],
    query := [("type_id", .num ty)] }

/-! ## Spec-modelled internal helpers (their sources are not in the provided
files; only their call sites are) -/

/-- Modelled from the spec: `getNames` (src/internal/names.ts, absent from the
provided sources).  Per the `@esi_route post_universe_names [category]`
annotations on its callers, it issues one `post_universe_names` request for the
ids and returns the id-to-name pairs of the response entries whose `category`
field equals the requested name category. -/
def getNames (category : String) (ids : List Int) : M ε (List (Int × String)) :=
  M.bind (M.call (namesRequest ids)) fun r =>
    M.pure <| r.toArr.filterMap fun e =>
      match e.getField "category", e.getField "id", e.getField "name" with
      | .str c, .num i, .str n => if c = category then some (i, n) else none
      | _, _, _ => none

/-- Modelled from the spec: `getIteratedNames` (src/internal/names.ts, absent
from the provided sources) resolves the streamed ids and then behaves as
`getNames` for them. -/
def getIteratedNames (category : String) (ids : M ε (List Int)) :
    M ε (List (Int × String)) :=
  M.bind ids fun l => getNames category l

/-- Modelled from the spec: `makeDefaultSearch` (src/internal/search.ts, absent
from the provided sources) builds a search function that issues one
`get_search` request restricted to the category (`@esi_route ids get_search
[region]`) and yields the ids listed under that category in the response. -/
def makeDefaultSearch (category : String) : String → Bool → M ε (List Int) :=
  fun q strict =>
    M.map (fun r => Json.toIntList (r.getField category))
      (M.call (searchRequest category q strict))

/-- Modelled from the spec: `r.impl.SimpleMappedResource` built from an id
array (src/internal/resource-api.ts, absent from the provided sources).  Per
the `Regions` interface doc, "If an array is provided, duplicates are removed
(although the input array is not modified)": the pair is (the stored distinct
ids, the caller's array after construction). -/
def simpleMappedFromArray (ids : List Int) : List Int × List Int :=
  (ids.dedup, ids)

/-- Modelled from the spec: `r.impl.makePageBasedStreamer`
(src/internal/resource-api.ts, absent from the provided sources).  Pages are
fetched sequentially starting at `page`; each page's results are concatenated
in fetch order, and fetching stops after the first page whose length is below
the page size (an empty or short page), as the `Contacts.all` test documents.
`fuel` bounds the recursion of the model. -/
def fetchPagesFrom (fetch : Nat → M ε (List Json)) (pageSize : Nat) :
    Nat → Nat → M ε (List Json)
  | 0, _ => M.pure []
  | fuel + 1, page =>
    M.bind (fetch page) fun xs =>
      if xs.length < pageSize then M.pure xs
      else M.map (fun rest => xs ++ rest)
        (fetchPagesFrom fetch pageSize fuel (page + 1))

/-- Modelled from the spec: the streamer starts at page 1. -/
def makePageBasedStreamer (fetch : Nat → M ε (List Json)) (pageSize : Nat)
    (fuel : Nat) : M ε (List Json) :=
  fetchPagesFrom fetch pageSize fuel 1

/-! ## regions.ts wrappers -/

/-- `getDetails(agent, id)` in regions.ts: a single request for the region's
details. -/
def getDetails (id : Int) : M ε Json :=
  M.call (detailsRequest id)

/-- `MappedConstellations` (src/api/universe/constellations.ts, outside the
provided sources): only the id-set provider passed at construction is
relevant here, so the model keeps exactly that. -/
structure MappedConstellations (ε : Type) where
  idProvider : M ε Json

/-- `RegionMarket` holds the agent (ambient in `M`) and the region id.  The
source also caches the orders/types streamer closures; those caches only
memoize the closure, not any response, and are not modelled. -/
structure RegionMarket where
  id : Int
deriving DecidableEq

/-- The fetcher `RegionMarket.orders` hands to `makePageBasedStreamer`:
requests one page of orders and wraps it as `{ result, maxPages: undefined }`
(only `result`, the array, is kept here). -/
def RegionMarket.ordersFetch (m : RegionMarket) (page : Nat) : M ε (List Json) :=
  M.map Json.toArr (M.call (ordersPageRequest m.id page))

/-- `RegionMarket.orders()`: the page-based streamer over `ordersFetch` with
page size 10000. -/
def RegionMarket.orders (m : RegionMarket) (fuel : Nat) : M ε (List Json) :=
  makePageBasedStreamer m.ordersFetch 10000 fuel

/-- `RegionMarket.buyOrdersFor(type)`. -/
def RegionMarket.buyOrdersFor (m : RegionMarket) (ty : Int) : M ε Json :=
  M.call (buyOrdersRequest m.id ty)

/-- `RegionMarket.sellOrdersFor(type)`. -/
def RegionMarket.sellOrdersFor (m : RegionMarket) (ty : Int) : M ε Json :=
  M.call (sellOrdersRequest m.id ty)

/-- `RegionMarket.ordersFor(type)`. -/
def RegionMarket.ordersFor (m : RegionMarket) (ty : Int) : M ε Json :=
  M.call (allOrdersRequest m.id ty)

/-- The fetcher of `RegionMarket.types()`, page size 1000. -/
def RegionMarket.typesFetch (m : RegionMarket) (page : Nat) : M ε (List Json) :=
  M.map Json.toArr (M.call (typesPageRequest m.id page))

/-- `RegionMarket.types()`. -/
def RegionMarket.types (m : RegionMarket) (fuel : Nat) : M ε (List Json) :=
  makePageBasedStreamer m.typesFetch 1000 fuel

/-- `RegionMarket.history(type)`. -/
def RegionMarket.history (m : RegionMarket) (ty : Int) : M ε Json :=
  M.call (historyRequest m.id ty)

/-- The `Region` class: the id passed to the constructor plus the two lazily
initialised cache fields `constellations_` and `market_` (both start
`undefined`). -/
structure Region (ε : Type) where
  id_ : Int
  constellations_ : Option (MappedConstellations ε) := none
  market_ : Option RegionMarket := none

/-- `Region.details()`. -/
def Region.details (reg : Region ε) : M ε Json :=
  getDetails reg.id_

/-- `Region.names()`: `this.details().then(result => result.name)`. -/
def Region.names (reg : Region ε) : M ε Json :=
  M.bind reg.details fun result => M.pure (result.getField "name")

/-- The `constellations` getter: on first access builds a
`MappedConstellations` over `() => this.details().then(r => r.constellations)`
and stores it; afterwards returns the stored object.  The triple is (returned
object, the instance after the access, requests issued by the access). -/
def Region.constellations (reg : Region ε) :
    MappedConstellations ε × Region ε × List Request :=
  match reg.constellations_ with
  | none =>
    let c : MappedConstellations ε :=
      ⟨M.bind reg.details fun r => M.pure (r.getField "constellations")⟩
    (c, { reg with constellations_ := some c }, [])
  | some c => (c, reg, [])

/-- The `market` getter: on first access builds a `RegionMarket` for this
region's id and stores it; afterwards returns the stored object. -/
def Region.market (reg : Region ε) :
    RegionMarket × Region ε × List Request :=
  match reg.market_ with
  | none =>
    let m : RegionMarket := ⟨reg.id_⟩
    (m, { reg with market_ := some m }, [])
  | some m => (m, reg, [])

/-- The id collection a `MappedRegions` is constructed over: a `number[]`, a
`Set<number>`, or an `r.impl.IDSetProvider` thunk. -/
inductive MappedIds (ε : Type) where
  | fromArray (ids : List Int)
  | fromSet (ids : Finset Int)
  | fromProvider (provide : M ε (List Int))

/-- The `MappedRegions` class: the agent (ambient in `M`) and the id
collection handed to `SimpleMappedResource`. -/
structure MappedRegions (ε : Type) where
  ids : MappedIds ε

/-- Modelled from the spec: `SimpleMappedResource.arrayIDs`
(src/internal/resource-api.ts, absent from the provided sources) resolves the
id collection to an array — the distinct ids of an array, the elements of a
set, or the provider's result. -/
def MappedRegions.arrayIDs (m : MappedRegions ε) : M ε (List Int) :=
  match m.ids with
  | .fromArray l => M.pure l.dedup
  | .fromSet s => M.pure (s.sort (· ≤ ·))
  | .fromProvider p => p

/-- `MappedRegions.names()`:
`this.arrayIDs().then(ids => getNames(agent, esi.universe.NameCategory.CONSTELLATION, ids))`
— the category constant the source passes is `CONSTELLATION`. -/
def MappedRegions.names (m : MappedRegions ε) : M ε (List (Int × String)) :=
  M.bind m.arrayIDs fun ids =>
    getNames esi.NameCategory.CONSTELLATION ids

/-- `MappedRegions.details()`: one `getDetails` per mapped id (the
`getResource` combinator resolves the ids and fetches each). -/
def MappedRegions.details (m : MappedRegions ε) : M ε (List (Int × Json)) :=
  M.bind m.arrayIDs fun ids =>
    ids.foldr
      (fun id acc =>
        M.bind (getDetails id) fun d =>
        M.bind acc fun rest => M.pure ((id, d) :: rest))
      (M.pure [])

/-- The `IteratedRegions` class: its constructor wires an array streamer over
`agent.request('get_universe_regions', undefined)`. -/
structure IteratedRegions (ε : Type) where
  idStreamer : M ε (List Int)

/-- The `IteratedRegions` built by its constructor. -/
def IteratedRegions.new : IteratedRegions ε :=
  ⟨M.map Json.toIntList (M.call regionsListRequest)⟩

/-- `IteratedRegions.names()`:
`getIteratedNames(agent, esi.universe.NameCategory.REGION, this.ids())`. -/
def IteratedRegions.names (it : IteratedRegions ε) : M ε (List (Int × String)) :=
  getIteratedNames esi.NameCategory.REGION it.idStreamer

/-! ## The Regions functor (makeRegions) and the Stations functor
(makeStations) -/

/-- The shapes the `Regions` functor can be called with, mirroring the
`typeof` dispatch in `makeRegions`: no argument, a number, an array, a `Set`,
or a string query (whose `strict` flag defaults to `false`). -/
inductive RegionsArg where
  | noArg
  | oneId (id : Int)
  | idArray (ids : List Int)
  | idSet (ids : Finset Int)
  | query (q : String) (strict : Bool)

/-- The three wrapper variants `makeRegions` can return. -/
inductive RegionsResult (ε : Type) where
  | iterated (it : IteratedRegions ε)
  | single (reg : Region ε)
  | mapped (m : MappedRegions ε)

/-- `makeRegions(agent)`: builds `regionSearch = makeDefaultSearch(agent,
esi.SearchCategory.REGION)` and returns the functor dispatching on the
argument's shape: `undefined` gives `IteratedRegions`, a number gives
`Region`, a string gives `MappedRegions` over `() => regionSearch(ids,
strict)`, and an array or `Set` gives `MappedRegions` over the ids. -/
def makeRegions : RegionsArg → RegionsResult ε
  | .noArg => .iterated IteratedRegions.new
  | .oneId id => .single { id_ := id }
  | .query q strict =>
    .mapped ⟨.fromProvider (makeDefaultSearch esi.SearchCategory.REGION q strict)⟩
  | .idArray ids => .mapped ⟨.fromArray ids⟩
  | .idSet ids => .mapped ⟨.fromSet ids⟩

/-- The `StationImpl` class of stations.ts. -/
structure StationImpl where
  id_ : Int
deriving DecidableEq

/-- `StationImpl.info()`: a single `get_universe_stations_station_id`
request. -/
def StationImpl.info (s : StationImpl) : M ε Json :=
  M.call (stationInfoRequest s.id_)

/-- `StationImpl.id()`: `Promise.resolve(this.id_)`, no request. -/
def StationImpl.idOf (s : StationImpl) : M ε Int :=
  M.pure s.id_

/-- The `Stations` functor: callable with a station id, plus the `search` and
`names` properties attached by `makeStations`. -/
structure Stations (ε : Type) where
  applyId : Int → StationImpl
  search : String → Bool → M ε (List Int)
  names : List Int → M ε (List (Int × String))

/-- `makeStations(agent)`: the id call builds a `StationImpl`, `search` is
`makeDefaultSearch(agent, esi.SearchCategory.STATION)`, and `names` is
`getNames(agent, esi.universe.NameCategory.STATION, ids)`. -/
def makeStations : Stations ε :=
  { applyId := fun id => ⟨id⟩,
    search := makeDefaultSearch esi.SearchCategory.STATION,
    names := fun ids => getNames esi.NameCategory.STATION ids }

/-! ## Concrete agents and page-combination helpers used by the theorems -/

/-- The concatenation of `count` pages starting at page `startPage`, in
increasing page order. -/
def pagesConcat (pages : Nat → List Json) : Nat → Nat → List Json
  | _, 0 => []
  | startPage, count + 1 =>
    pages startPage ++ pagesConcat pages (startPage + 1) count

/-- The requests for `count` consecutive pages starting at `startPage`, in
increasing page order. -/
def pageRequests (reqs : Nat → Request) : Nat → Nat → List Request
  | _, 0 => []
  | startPage, count + 1 =>
    reqs startPage :: pageRequests reqs (startPage + 1) count

/-- A `post_universe_names` response entry of category `region`. -/
def regionEntry : Json :=
  .obj [("id", .num 10000001), ("name", .str "Derelik"), ("category", .str "region")]

/-- An agent answering every request with the one region-category name
entry. -/
def regionNamesAgent : Agent Unit := fun _ => .ok (.arr [regionEntry])

/-- A full first page of orders (exactly the page size 10000 used by
`RegionMarket.orders`). -/
def fullOrdersPage : List Json := List.replicate 10000 (Json.num 0)

/-- An agent whose page 1 of orders is full and whose every later page is
empty, so the orders streamer must fetch a second page. -/
def twoPageOrdersAgent : Agent Unit := fun r =>
  if r.query.lookup "page" = some (.num 1) then .ok (.arr fullOrdersPage)
  else .ok (.arr [])

/-- An agent that rejects every request with the same error. -/
def alwaysErrAgent : Agent Unit := fun _ => .error ()

/-- An agent whose every response is a one-element order page (a short first
page for the orders streamer). -/
def shortPageAgent : Agent Unit := fun _ => .ok (.arr [.num 7])

/-- Behaviour of the spec-modelled page streamer: when every fetch of page `p`
resolves to `pages p` via the single request `reqs p`, the pages before
`startPage + k` are full, page `startPage + k` is the first short page, and
the fuel suffices, the streamer resolves to the concatenation of the pages in
increasing page order and issues exactly the per-page requests in that
order. -/
theorem fetchPagesFrom_spec (ε : Type) (agent : Agent ε)
    (fetch : Nat → M ε (List Json)) (pages : Nat → List Json)
    (reqs : Nat → Request) (pageSize : Nat)
    (hfetch : ∀ p, fetch p agent = (.ok (pages p), [reqs p])) :
    ∀ (k startPage fuel : Nat),
      (∀ i, i < k → pageSize ≤ (pages (startPage + i)).length) →
      (pages (startPage + k)).length < pageSize →
      k < fuel →
      fetchPagesFrom fetch pageSize fuel startPage agent
        = (.ok (pagesConcat pages startPage (k + 1)),
           pageRequests reqs startPage (k + 1)) := by
  intro k
  induction k with
  | zero =>
    intro startPage fuel hfull hshort hfuel
    obtain ⟨f, rfl⟩ : ∃ f, fuel = f + 1 := ⟨fuel - 1, by omega⟩
    have h0 := hfetch startPage
    have hcond : (pages startPage).length < pageSize := by simpa using hshort
    simp [fetchPagesFrom, M.bind, h0, hcond, M.pure, pagesConcat, pageRequests]
  | succ k ih =>
    intro startPage fuel hfull hshort hfuel
    obtain ⟨f, rfl⟩ : ∃ f, fuel = f + 1 := ⟨fuel - 1, by omega⟩
    have h0 := hfetch startPage
    have hfull0 : pageSize ≤ (pages startPage).length := by
      have h := hfull 0 (Nat.succ_pos k)
      simpa using h
    have hrec := ih (startPage + 1) f
      (fun i hi => by
        have h := hfull (i + 1) (by omega)
        have he : startPage + (i + 1) = startPage + 1 + i := by omega
        rwa [he] at h)
      (by
        have he : startPage + (k + 1) = startPage + 1 + k := by omega
        rwa [he] at hshort)
      (by omega)
    have hcond : ¬ (pages startPage).length < pageSize := by omega
    simp [fetchPagesFrom, M.bind, h0, hcond, M.map, hrec, M.pure,
      pagesConcat, pageRequests]

/-- C7: detail-fetching operations are pass-through — for every agent and id,
`Station.info` and `Region.details` resolve to exactly the value the agent
produces for the corresponding request, with no transformation, filtering, or
added fields. -/
theorem C7_detail_ops_pass_through (ε : Type) (agent : Agent ε) (id : Int) :
    (StationImpl.info ⟨id⟩ agent).1 = agent (stationInfoRequest id) ∧
    (Region.details { id_ := id } agent).1 = agent (detailsRequest id) := by
  exact ⟨rfl, rfl⟩

/-- C9: for every agent and every `Region` instance, `names()` resolves to
exactly the `name` field of the response `details()` resolves to (and issues
the same requests): `names` is `details` composed with projecting the `name`
field. -/
theorem C9_region_names_projects_details (ε : Type) (agent : Agent ε)
    (reg : Region ε) :
    reg.names agent
      = ((reg.details agent).1.map (fun result => result.getField "name"),
         (reg.details agent).2) := by
  cases h : agent (detailsRequest reg.id_) <;>
    simp [Region.names, Region.details, getDetails, M.bind, M.pure, M.call, h,
      Except.map]

/-- C10: the `constellations` and `market` accessors are idempotent — the
first access stores the object it creates, any access after the first returns
that identical cached object with the instance unchanged, and no access
issues a request to the agent. -/
theorem C10_region_accessors_cached (ε : Type) (reg : Region ε) :
    (reg.constellations.2.1.constellations
        = (reg.constellations.1, reg.constellations.2.1, ([] : List Request))) ∧
    reg.constellations.2.2 = [] ∧
    (reg.market.2.1.market
        = (reg.market.1, reg.market.2.1, ([] : List Request))) ∧
    reg.market.2.2 = [] := by
  obtain ⟨id, c, m⟩ := reg
  cases c <;> cases m <;>
    simp [Region.constellations, Region.market]

/-- C8: a `MappedRegions` built from an id array operates on the distinct ids
(duplicates removed, same elements), and the caller's array is not modified
by the construction. -/
theorem C8_mapped_array_dedup_frame (ε : Type) (ids : List Int) :
    (simpleMappedFromArray ids).1.Nodup ∧
    (∀ x, x ∈ (simpleMappedFromArray ids).1 ↔ x ∈ ids) ∧
    (simpleMappedFromArray ids).2 = ids ∧
    MappedRegions.arrayIDs (ε := ε) ⟨.fromArray ids⟩
      = M.pure (simpleMappedFromArray ids).1 := by
  exact ⟨List.nodup_dedup ids, fun x => List.mem_dedup, rfl, rfl⟩

/-- C6: the station wrapper constructs the expected request parameters —
`makeStations(agent)(id).info()` issues exactly the single request
`get_universe_stations_station_id` with path `station_id: id` and resolves to
the agent's response, and `names(ids)` resolves the ids via the station name
category, issuing the one `post_universe_names` request for the ids. -/
theorem C6_makeStations_request_shapes (ε : Type) (agent : Agent ε) (id : Int)
    (ids : List Int) :
    ((makeStations (ε := ε)).applyId id).info agent
        = (agent (stationInfoRequest id), [stationInfoRequest id]) ∧
    stationInfoRequest id
        = { route := "get_universe_stations_station_id",
            path := [("station_id", id)] } ∧
    (makeStations (ε := ε)).names ids = getNames esi.NameCategory.STATION ids ∧
    ((makeStations (ε := ε)).names ids agent).2 = [namesRequest ids] := by
  refine ⟨rfl, rfl, rfl, ?_⟩
  cases h : agent (namesRequest ids) <;>
    simp [makeStations, getNames, M.bind, M.pure, M.call, h]

/-- C1: the functor built by `makeRegions` dispatches on its argument's
shape — no argument gives the `IteratedRegions` wrapper over all regions, a
number gives a `Region` bound to exactly that id, an array or `Set` gives a
`MappedRegions` over those ids, and a string query gives a `MappedRegions`
whose id set comes from the region-category search for that query (its id
provider issues exactly the region search request and yields the ids in the
response's region list). -/
theorem C1_makeRegions_dispatch (ε : Type) :
    (makeRegions (ε := ε) .noArg = .iterated IteratedRegions.new) ∧
    (∀ id : Int, makeRegions (ε := ε) (.oneId id)
        = .single { id_ := id, constellations_ := none, market_ := none }) ∧
    (∀ ids : List Int, makeRegions (ε := ε) (.idArray ids)
        = .mapped ⟨.fromArray ids⟩) ∧
    (∀ s : Finset Int, makeRegions (ε := ε) (.idSet s)
        = .mapped ⟨.fromSet s⟩) ∧
    (∀ (q : String) (strict : Bool), makeRegions (ε := ε) (.query q strict)
        = .mapped ⟨.fromProvider
            (makeDefaultSearch esi.SearchCategory.REGION q strict)⟩) ∧
    (∀ (q : String) (strict : Bool) (agent : Agent ε),
        MappedRegions.arrayIDs
            ⟨.fromProvider (makeDefaultSearch esi.SearchCategory.REGION q strict)⟩
            agent
          = ((agent (searchRequest esi.SearchCategory.REGION q strict)).map
               (fun r => Json.toIntList (r.getField esi.SearchCategory.REGION)),
             [searchRequest esi.SearchCategory.REGION q strict])) := by
  refine ⟨rfl, fun _ => rfl, fun _ => rfl, fun _ => rfl, fun _ _ => rfl,
    fun q strict agent => ?_⟩
  cases h : agent (searchRequest esi.SearchCategory.REGION q strict) <;>
    simp [MappedRegions.arrayIDs, makeDefaultSearch, M.map, M.bind, M.pure,
      M.call, h, Except.map]

/-- C3 (code bug): evaluated at the mapped region id 10000001 with an agent
whose `post_universe_names` response holds the region-category entry
`(10000001, Derelik)`, `MappedRegions.names` resolves to the empty list —
the source passes `esi.universe.NameCategory.CONSTELLATION`, so the
region-category entry is filtered out — whereas `getNames` with the region
category (what the claim and the source's own `@esi_route post_universe_names
[region]` annotation say, and what `IteratedRegions.names` does) resolves the
name. -/
theorem C3_mappedRegions_names_wrong_category :
    MappedRegions.names ⟨.fromArray [10000001]⟩ regionNamesAgent
        = (.ok [], [namesRequest [10000001]]) ∧
    getNames esi.NameCategory.REGION [10000001] regionNamesAgent
        = (.ok [(10000001, "Derelik")], [namesRequest [10000001]]) ∧
    IteratedRegions.names (⟨M.pure [10000001]⟩ : IteratedRegions Unit)
        regionNamesAgent
        = (.ok [(10000001, "Derelik")], [namesRequest [10000001]]) := by
  refine ⟨?_, ?_, ?_⟩ <;> rfl

/-- C5: when the agent rejects, every embedded wrapper method's promise
rejects with that same error value, unchanged, and its route was requested
exactly once (the single request in the trace) — no retry, backoff, or
recovery.  For the paginated `orders` the first page request rejects the
whole promise the same way. -/
theorem C5_errors_pass_through (ε : Type) (agent : Agent ε) (e : ε)
    (h : ∀ r, agent r = Except.error e) (id ty : Int) (ids : List Int)
    (fuel : Nat) :
    StationImpl.info ⟨id⟩ agent = (.error e, [stationInfoRequest id]) ∧
    Region.details { id_ := id } agent = (.error e, [detailsRequest id]) ∧
    Region.names { id_ := id } agent = (.error e, [detailsRequest id]) ∧
    RegionMarket.buyOrdersFor ⟨id⟩ ty agent
        = (.error e, [buyOrdersRequest id ty]) ∧
    RegionMarket.sellOrdersFor ⟨id⟩ ty agent
        = (.error e, [sellOrdersRequest id ty]) ∧
    RegionMarket.ordersFor ⟨id⟩ ty agent
        = (.error e, [allOrdersRequest id ty]) ∧
    RegionMarket.history ⟨id⟩ ty agent
        = (.error e, [historyRequest id ty]) ∧
    (makeStations (ε := ε)).names ids agent
        = (.error e, [namesRequest ids]) ∧
    RegionMarket.orders ⟨id⟩ (fuel + 1) agent
        = (.error e, [ordersPageRequest id 1]) := by
  refine ⟨?_, ?_, ?_, ?_, ?_, ?_, ?_, ?_, ?_⟩ <;>
    simp [StationImpl.info, Region.details, Region.names, getDetails,
      RegionMarket.buyOrdersFor, RegionMarket.sellOrdersFor,
      RegionMarket.ordersFor, RegionMarket.history, RegionMarket.orders,
      makePageBasedStreamer, fetchPagesFrom, RegionMarket.ordersFetch,
      makeStations, getNames, M.bind, M.pure, M.call, M.map, h]

/-- Witness for C5 at the concrete always-rejecting agent, station/region id 1
and type 2. -/
theorem C5_errors_pass_through_witness :
    StationImpl.info ⟨1⟩ alwaysErrAgent
        = (.error (), [stationInfoRequest 1]) ∧
    Region.names { id_ := 1 } alwaysErrAgent
        = (.error (), [detailsRequest 1]) ∧
    RegionMarket.orders ⟨1⟩ 3 alwaysErrAgent
        = (.error (), [ordersPageRequest 1 1]) := by
  have h := C5_errors_pass_through Unit alwaysErrAgent ()
    (fun r => rfl) 1 2 [3] 2
  exact ⟨h.1, h.2.2.1, h.2.2.2.2.2.2.2.2⟩

/-- C2: for the paginated `RegionMarket.orders` streamer, when the agent
resolves page `p` to the array `pages p`, the pages before the first short
page are full and the first short page is page `k + 1` (lengths measured
against the page size 10000), the resolved result is exactly the
concatenation of the per-page responses in increasing page order starting at
page 1 — no reordering or deduplication — and the issued requests are the
per-page requests in that same order, stopping at the first empty or short
page. -/
theorem C2_orders_concatenates_pages (ε : Type) (agent : Agent ε)
    (m : RegionMarket) (pages : Nat → List Json) (k fuel : Nat)
    (hagent : ∀ p, agent (ordersPageRequest m.id p) = .ok (.arr (pages p)))
    (hfull : ∀ i, i < k → 10000 ≤ (pages (1 + i)).length)
    (hshort : (pages (1 + k)).length < 10000)
    (hfuel : k < fuel) :
    m.orders fuel agent
      = (.ok (pagesConcat pages 1 (k + 1)),
         pageRequests (fun p => ordersPageRequest m.id p) 1 (k + 1)) := by
  have hfetch : ∀ p, RegionMarket.ordersFetch m p agent
      = (.ok (pages p), [ordersPageRequest m.id p]) := by
    intro p
    simp [RegionMarket.ordersFetch, M.map, M.bind, M.call, M.pure, hagent p,
      Json.toArr]
  exact fetchPagesFrom_spec ε agent m.ordersFetch pages
    (fun p => ordersPageRequest m.id p) 10000 hfetch k 1 fuel hfull hshort hfuel

/-- Witness for C2 at the agent whose every page is the short one-element
array: the streamer stops after page 1 and resolves to that page alone. -/
theorem C2_orders_concatenates_pages_witness :
    RegionMarket.orders ⟨5⟩ 3 shortPageAgent
      = (.ok [Json.num 7], [ordersPageRequest 5 1]) := by
  have h := C2_orders_concatenates_pages Unit shortPageAgent ⟨5⟩
    (fun _ => [Json.num 7]) 0 3 (fun p => rfl) (fun i hi => absurd hi (by omega))
    (by simp) (by omega)
  simpa [pagesConcat, pageRequests] using h

/-- C4 counterexample: at the concrete agent whose first orders page is full
(10000 entries) and whose second page is empty, one invocation of the wrapper
method `RegionMarket.orders` issues two requests to the agent before its
promise settles — pages 1 and 2 — not exactly one. -/
theorem C4_orders_not_single_shot :
    (RegionMarket.orders ⟨5⟩ 5 twoPageOrdersAgent).2
        = [ordersPageRequest 5 1, ordersPageRequest 5 2] ∧
    ¬ ((RegionMarket.orders ⟨5⟩ 5 twoPageOrdersAgent).2.length = 1) := by
  have hfetch : ∀ p, RegionMarket.ordersFetch (⟨5⟩ : RegionMarket) p
      twoPageOrdersAgent
      = (.ok (if p = 1 then fullOrdersPage else []), [ordersPageRequest 5 p]) := by
    intro p
    by_cases hp : p = 1
    · subst hp; rfl
    · have hcond : ¬ ((ordersPageRequest 5 p).query.lookup "page"
          = some (.num 1)) := by
        simp [ordersPageRequest, List.lookup, hp]
      simp [RegionMarket.ordersFetch, M.map, M.bind, M.call, M.pure,
        twoPageOrdersAgent, hcond, Json.toArr, hp]
  have h := fetchPagesFrom_spec Unit twoPageOrdersAgent
    (RegionMarket.ordersFetch ⟨5⟩)
    (fun p => if p = 1 then fullOrdersPage else [])
    (fun p => ordersPageRequest 5 p) 10000 hfetch 1 1 5
    (fun i hi => by
      have hi0 : i = 0 := by omega
      subst hi0
      show 10000 ≤ (if (1 + 0 : Nat) = 1 then fullOrdersPage else []).length
      rw [if_pos rfl, fullOrdersPage, List.length_replicate])
    (by
      show (if (1 + 1 : Nat) = 1 then fullOrdersPage else []).length < 10000
      rw [if_neg (by omega)]
      simp)
    (by omega)
  have horders : RegionMarket.orders (⟨5⟩ : RegionMarket) 5 twoPageOrdersAgent
      = (.ok (pagesConcat (fun p => if p = 1 then fullOrdersPage else []) 1 2),
         pageRequests (fun p => ordersPageRequest 5 p) 1 2) := h
  rw [horders]
  simp [pageRequests]

/-- C4 amended: the detail-style wrapper methods — `Station.info`,
`Region.details`, `Region.names`, `RegionMarket.buyOrdersFor`,
`sellOrdersFor`, `ordersFor`, `history`, and the station `names` — each issue
exactly one request to the agent before the returned promise settles; the
paginated streaming operations instead issue one request per fetched page
(see the C2 theorem), which exceeds one whenever the first page is full. -/
theorem C4_single_shot_amended (ε : Type) (agent : Agent ε) (id ty : Int)
    (ids : List Int) :
    (StationImpl.info ⟨id⟩ agent).2.length = 1 ∧
    (Region.details { id_ := id } agent).2.length = 1 ∧
    (Region.names { id_ := id } agent).2.length = 1 ∧
    (RegionMarket.buyOrdersFor ⟨id⟩ ty agent).2.length = 1 ∧
    (RegionMarket.sellOrdersFor ⟨id⟩ ty agent).2.length = 1 ∧
    (RegionMarket.ordersFor ⟨id⟩ ty agent).2.length = 1 ∧
    (RegionMarket.history ⟨id⟩ ty agent).2.length = 1 ∧
    ((makeStations (ε := ε)).names ids agent).2.length = 1 := by
  refine ⟨rfl, rfl, ?_, rfl, rfl, rfl, rfl, ?_⟩
  · cases h : agent (detailsRequest id) <;>
      simp [Region.names, Region.details, getDetails, M.bind, M.pure, M.call, h]
  · cases h : agent (namesRequest ids) <;>
      simp [makeStations, getNames, M.bind, M.pure, M.call, h]
